import Mathlib

/-!
Shallow embedding of `life_expectancy/cleaning.py` (class `DataCleaner`)
together with the call pattern of `life_expectancy/main.py`.

The pandas operations the code relies on are modelled at the level the code
uses them:
  * `Series.str.split(',', expand=True)` : every cell split on `,`, rows
    padded with nulls (NaN) up to the maximum number of parts;
  * `df.columns = names` : raises `ValueError` (length mismatch) when the
    number of names differs from the number of columns;
  * `pd.melt(frame, id_vars, value_vars, var_name='year')` : raises
    `KeyError` when a requested column is absent, or when an `id_vars`
    entry is repeated (its second `frame.pop` fails); raises `ValueError`
    ("Data must be 1-dimensional") when an `id_vars` label matches two
    columns of the frame (the popped id data is two-dimensional);
    otherwise melt narrows the frame to `unique(id_vars ++ value_vars)`
    and pops every id column out of it — so a value variable that is also
    an `id_vars` entry contributes NO block (`K = cols - len(id_vars)`) —
    then emits one block per remaining value variable, each block listing
    every row in order;
  * `DataFrame.rename(columns=d)` : maps every column name through `d`,
    silently ignoring keys that match no column;
  * attribute access `df.region` / `df.value` : raises `AttributeError`
    when no column of that name exists;
  * `Series.str.extract(r'(\d+.\d)')` : the FIRST regex match per cell —
    note the unescaped `.`, which matches any character; cells without a
    match, and non-string cells, become null;
  * `.astype(float)` : Python `float()` on each non-null cell, raising
    `ValueError` on an unparseable string (null stays null).
Cells are strings, floats (modelled as `ℚ`: the source values carry one
decimal digit, exact in `ℚ`) or null (None/NaN).
-/

namespace LifeExpectancy

/-! Python string methods, modelled over the character list (structural
recursion, so every theorem below can be checked by evaluation). -/

/-- Python `str.split(sep)` for a one-character separator: the empty
string yields `[""]`, separators at either end produce empty parts. -/
def splitOnChar (sep : Char) : List Char → List (List Char)
  | [] => [[]]
  | c :: rest =>
    let r := splitOnChar sep rest
    if c = sep then [] :: r
    else
      match r with
      | h :: t => (c :: h) :: t
      | [] => [[c]]

/-- Python `str.split(sep)` on a string, parts as strings. -/
def pySplit (sep : Char) (s : String) : List String :=
  (splitOnChar sep s.data).map List.asString

/-- Python `str.replace(old, new)` for one-character `old` and `new`. -/
def pyReplaceChar (old new : Char) (s : String) : String :=
  (s.data.map (fun c => if c = old then new else c)).asString

/-- Python `str.strip()` (pandas `str.strip`): drop whitespace from both
ends. -/
def pyStrip (s : String) : String :=
  (((s.data.dropWhile Char.isWhitespace).reverse.dropWhile
    Char.isWhitespace).reverse).asString

/-- Python `str.upper()` (the region codes are ASCII). -/
def pyUpper (s : String) : String :=
  (s.data.map Char.toUpper).asString

/-- A cell of a pandas frame: a string, a numeric value, or null (NaN). -/
inductive Cell where
  | str (s : String)
  | num (q : ℚ)
  | null
deriving DecidableEq, Repr

/-- The raw table as `pd.read_csv(fn, sep="\t")` yields it: the header of
column 0, the headers of the year columns, and the rows (column-0 cell
paired with the year cells, all still strings). -/
structure RawTable where
  header0 : String
  yearHeaders : List String
  rows : List (String × List String)
deriving DecidableEq, Repr

/-- A pandas DataFrame with named columns, as the transform stages see it. -/
structure Frame where
  header : List String
  rows : List (List Cell)
deriving DecidableEq, Repr

/-- The exceptions the Python code can raise, by pipeline stage. -/
inductive PyError where
  /-- `AssertionError` from `_transform_validations` / `_load_validations`;
  the spec's name for the stage-sequencing error. -/
  | preconditionError (msg : String)
  /-- pandas `ValueError` from `expanded_index.columns = index_cols` when
  the number of names differs from the number of split columns. -/
  | lengthMismatch
  /-- pandas `KeyError` from `pd.melt` when an `id_vars` entry is absent
  or repeated (the repeated entry's second `frame.pop` fails). -/
  | keyError
  /-- `AttributeError` from `df.region` / `df.value` when the column is
  missing. -/
  | attributeError
  /-- Python `ValueError`: from `.astype(float)` on an unparseable string,
  or from `pd.melt` when an `id_vars` label matches two frame columns
  (two-dimensional popped id data). -/
  | valueError
deriving DecidableEq, Repr

deriving instance DecidableEq for Except

/-- Look a cell up by column name: first column of that name, null when the
row is too short. (`hdr` and the row come from the same frame.) -/
def cellAt (hdr : List String) (row : List Cell) (name : String) : Cell :=
  match hdr.findIdx? (· == name) with
  | some i => row.getD i Cell.null
  | none => Cell.null

/-- The value variables `pd.melt` actually iterates: melt narrows the
frame to `unique(id_vars ++ value_vars)` and pops every id column out of
the selection before assembling the blocks, so a value variable that is
also an `id_vars` entry contributes no block (`K = cols - len(id_vars)`:
requesting the only year column as an id_var yields an empty melt). -/
def meltValueVars (id_vars value_vars : List String) : List String :=
  value_vars.filter (fun v => !(id_vars.contains v))

/-- Model of `pd.melt(f, id_vars, value_vars, var_name='year')`. In order:
`KeyError` when a requested column is absent; `KeyError` when an
`id_vars` entry is repeated (its second `frame.pop` fails inside the id
loop); `ValueError` when an `id_vars` label matches two frame columns
(the popped id data is two-dimensional, and building the result frame
from it fails); otherwise one block per remaining value variable (ids
popped out of the selection first), each block listing every row in
source order. -/
def melt (f : Frame) (id_vars value_vars : List String) :
    Except PyError Frame :=
  if (id_vars ++ value_vars).all (fun c => f.header.contains c) then
    if id_vars.any (fun c => decide (2 ≤ id_vars.count c)) then
      .error .keyError
    else if id_vars.any (fun c => decide (2 ≤ f.header.count c)) then
      .error .valueError
    else
      .ok ⟨id_vars ++ ["year", "value"],
        (meltValueVars id_vars value_vars).flatMap (fun v =>
          f.rows.map (fun r =>
            id_vars.map (fun c => cellAt f.header r c) ++
              [Cell.str v, cellAt f.header r v]))⟩
  else
    .error .keyError

/-- `self.raw_df.iloc[:, 0].str.split(',', expand=True)` before the column
renaming: the split parts of every row. -/
def splitParts (raw : RawTable) : List (List String) :=
  raw.rows.map (fun r => pySplit ',' r.1)

/-- The number of columns `str.split(',', expand=True)` produces: the
maximum number of parts over all rows. -/
def maxSplitWidth (raw : RawTable) : Nat :=
  (splitParts raw).foldr (fun l acc => max l.length acc) 0

/-- Pad a split row with nulls (NaN) up to the frame width, as
`expand=True` does for rows with fewer parts. -/
def padTo (w : Nat) (l : List Cell) : List Cell :=
  l ++ List.replicate (w - l.length) Cell.null

/-- The rows of `expanded_index`: split parts, null-padded to the width. -/
def expandedIndex (raw : RawTable) : List (List Cell) :=
  (splitParts raw).map (fun p => padTo (maxSplitWidth raw) (p.map Cell.str))

/-- `self.raw_df.columns[0].replace("\\", ",").split(",")[:-1]`. -/
def indexCols (h : String) : List String :=
  (pySplit ',' (pyReplaceChar '\\' ',' h)).dropLast

/-- `year_values.columns.str.strip()`. -/
def trimmedYears (raw : RawTable) : List String :=
  raw.yearHeaders.map pyStrip

/-- `pd.concat([expanded_index, year_values], axis=1)` (after the column
assignments): attribute columns followed by the year columns. -/
def expandedFrame (raw : RawTable) : Frame :=
  ⟨indexCols raw.header0 ++ trimmedYears raw,
    List.zipWith (fun p r => p ++ r.map Cell.str)
      (expandedIndex raw) (raw.rows.map Prod.snd)⟩

/-- `DataCleaner._unpivot`: split column 0, name the split columns from the
column-0 header (raising on a length mismatch), strip the year headers,
concatenate and melt. -/
def unpivot (id_vars : List String) (raw : RawTable) :
    Except PyError Frame :=
  if (indexCols raw.header0).length ≠ maxSplitWidth raw then
    .error .lengthMismatch
  else
    melt (expandedFrame raw) id_vars (trimmedYears raw)

/-- `DataCleaner._rename`: with a falsy (empty) map do nothing, otherwise
map every column name through the dictionary, keeping names it misses. -/
def rename (rename_cols : List (String × String)) (f : Frame) : Frame :=
  if rename_cols.isEmpty then f
  else ⟨f.header.map (fun c => ((rename_cols.lookup c).getD c)), f.rows⟩

/-- Mask entry of `_filter`: `transformed_df.region.str.upper().isin(region)`
for one cell (`regionU` already upper-cased; null and numeric cells never
match, as `.str.upper()` turns them into NaN). -/
def cellMatches (regionU : List String) (c : Cell) : Bool :=
  match c with
  | .str s => regionU.contains (pyUpper s)
  | _ => false

/-- `DataCleaner._filter`: falsy region list is a no-op; otherwise read the
column literally named `region` (AttributeError when absent), upper-case
both sides, and when no row matches log a warning and keep the frame
unchanged, else keep exactly the matching rows. -/
def filterRegion (region : List String) (f : Frame) : Except PyError Frame :=
  if region.isEmpty then .ok f
  else
    let regionU := region.map pyUpper
    match f.header.findIdx? (· == "region") with
    | none => .error .attributeError
    | some i =>
      if f.rows.all (fun r => !(cellMatches regionU (r.getD i Cell.null))) then
        .ok f
      else
        .ok ⟨f.header,
          f.rows.filter (fun r => cellMatches regionU (r.getD i Cell.null))⟩

/-- The condition under which `_filter` logs
"the selected region doesn't match any region - IGNORED": a truthy region
list whose upper-cased values match no row of the `region` column. -/
def filterWarns (region : List String) (f : Frame) : Bool :=
  !region.isEmpty &&
    match f.header.findIdx? (· == "region") with
    | some i =>
        f.rows.all (fun r =>
          !(cellMatches (region.map pyUpper) (r.getD i Cell.null)))
    | none => false

/-- Greedy step of matching the regex `\d+.\d` at the start of `cs`: take
`k` leading digits (`k` descending, as the regex engine backtracks), then
any one character, then one digit; the match is `cs.take (k + 2)`. (The
unescaped `.` matches any character except a newline; the cells here never
contain newlines.) -/
def tryDigits (cs : List Char) : Nat → Option (List Char)
  | 0 => none
  | k' + 1 =>
    match cs.get? (k' + 2) with
    | some c => if c.isDigit then some (cs.take (k' + 3)) else tryDigits cs k'
    | none => tryDigits cs k'

/-- A match of `\d+.\d` anchored at the start of `cs`: `\d+` can take at
most the leading digit run, greedily. -/
def matchAtStart (cs : List Char) : Option (List Char) :=
  tryDigits cs (cs.takeWhile Char.isDigit).length

/-- Leftmost match of `\d+.\d` in a character list, as `re.search` finds
it. -/
def extractFirst : List Char → Option (List Char)
  | [] => none
  | c :: rest =>
    match matchAtStart (c :: rest) with
    | some m => some m
    | none => extractFirst rest

/-- `Series.str.extract(r'(\d+.\d)')` on one string cell: the first match
of the pattern (the single group spans the whole match). -/
def extractValue (s : String) : Option String :=
  (extractFirst s.data).map List.asString

/-- Digit characters to the number they denote. -/
def digitsToNat (ds : List Char) : Nat :=
  ds.foldl (fun acc c => 10 * acc + (c.toNat - 48)) 0

/-- The exponent tail of a Python float literal: optional sign, then
digits. -/
def applyExp (b : ℚ) (r : List Char) : Option ℚ :=
  let signed : Int × List Char :=
    match r with
    | '+' :: t => (1, t)
    | '-' :: t => (-1, t)
    | t => (1, t)
  let ds := signed.2.takeWhile Char.isDigit
  if ds.isEmpty || !(signed.2.dropWhile Char.isDigit).isEmpty then none
  else if signed.1 = 1 then some (b * 10 ^ digitsToNat ds)
  else some (b / 10 ^ digitsToNat ds)

/-- Python `float()` on the strings `.astype(float)` can meet here: digits,
an optional fractional part, an optional exponent. A capture of `\d+.\d`
always begins with a digit, so signs, leading dots, whitespace, underscores
and infinities cannot occur in the argument; `none` models the
`ValueError`. -/
def pyFloat (s : String) : Option ℚ :=
  let cs := s.data
  let intPart := cs.takeWhile Char.isDigit
  let rest := cs.dropWhile Char.isDigit
  if intPart.isEmpty then none
  else
    match rest with
    | [] => some (digitsToNat intPart)
    | '.' :: rest2 =>
      let frac := rest2.takeWhile Char.isDigit
      let q : ℚ := digitsToNat intPart + (digitsToNat frac : ℚ) / 10 ^ frac.length
      (match rest2.dropWhile Char.isDigit with
       | [] => some q
       | 'e' :: r => applyExp q r
       | 'E' :: r => applyExp q r
       | _ => none)
    | 'e' :: r => applyExp (digitsToNat intPart) r
    | 'E' :: r => applyExp (digitsToNat intPart) r
    | _ => none

/-- One entry of the extracted column of `_reformat`: the first `(\d+.\d)`
match for a string cell; null (NaN) for null or numeric cells. -/
def extractCell (c : Cell) : Option String :=
  match c with
  | .str s => extractValue s
  | _ => none

/-- The value cell written back by `_reformat`: the parsed capture, or
null when there was no match (null propagated through `astype(float)`). -/
def newValueCell (e : Option String) : Cell :=
  match e with
  | some s =>
    match pyFloat s with
    | some q => Cell.num q
    | none => Cell.null
  | none => Cell.null

/-- `DataCleaner._reformat`: extract the first `(\d+.\d)` match from the
`value` column (AttributeError when the column is absent), coerce the
matches with `float()` (ValueError when some capture is unparseable),
write the result back into `value`, and keep only the rows whose value is
not null. -/
def reformat (f : Frame) : Except PyError Frame :=
  match f.header.findIdx? (· == "value") with
  | none => .error .attributeError
  | some i =>
    let extracted := f.rows.map (fun r => extractCell (r.getD i Cell.null))
    if extracted.any (fun e => match e with
        | some s => (pyFloat s).isNone
        | none => false) then
      .error .valueError
    else
      .ok ⟨f.header,
        (List.zipWith (fun r e => r.set i (newValueCell e)) f.rows
          extracted).filter (fun r => r.getD i Cell.null != Cell.null)⟩

/-- The mutable state of a `DataCleaner` instance: the two frames are
`None` until `extract` / `transform` set them. -/
structure DataCleaner where
  raw_df : Option RawTable
  transformed_df : Option Frame
deriving DecidableEq, Repr

/-- `DataCleaner.__init__`: both frames start as `None`. -/
def initCleaner : DataCleaner := ⟨none, none⟩

/-- `DataCleaner.extract`: store the parsed file (the read itself is the
I/O boundary; its result is the `RawTable` argument). -/
def extract (dc : DataCleaner) (raw : RawTable) : DataCleaner :=
  { dc with raw_df := some raw }

/-- `DataCleaner.transform`: the `_transform_validations` assertion (the
spec's `PreconditionError`), then unpivot, rename, filter and reformat.
The Python `Optional` arguments are lists/maps whose empty value plays
`None`'s falsy role. -/
def transform (dc : DataCleaner) (id_vars : List String)
    (region : List String) (rename_cols : List (String × String)) :
    Except PyError DataCleaner :=
  match dc.raw_df with
  | none => .error (.preconditionError "extract the data first")
  | some raw => do
    let t ← unpivot id_vars raw
    let t ← filterRegion region (rename rename_cols t)
    let t ← reformat t
    .ok { dc with transformed_df := some t }

/-- `DataCleaner.load`: the `_load_validations` assertion; the frame handed
to `to_csv` is returned (the write is the I/O boundary). -/
def load (dc : DataCleaner) : Except PyError Frame :=
  match dc.transformed_df with
  | none => .error (.preconditionError "transform the data first")
  | some t => .ok t

/-- Spec-side check, following §4.5 of the spec as worded: does the string
contain a substring matching "one or more digits, a literal dot, exactly
one digit"? Such a substring exists exactly when a digit, a literal dot
and a digit occur consecutively. Used only to compare the spec's wording
with the code's regex. -/
def specHasDotMatch : List Char → Bool
  | a :: b :: c :: rest =>
    (a.isDigit && b == '.' && c.isDigit) || specHasDotMatch (b :: c :: rest)
  | _ => false

/-! Helper lemmas about the list combinators the embedding uses. -/

/-- An index returned by `findIdx?` is in range. -/
theorem findIdx?_lt_length {α : Type} {xs : List α} {p : α → Bool} {i : Nat}
    (h : xs.findIdx? p = some i) : i < xs.length :=
  (List.findIdx?_eq_some_iff_getElem.mp h).1

/-- Length of a melt body: one block per value variable, one entry per
row of each block. -/
theorem length_flatMap_map {α β γ : Type} (vs : List α) (rows : List β)
    (f : α → β → γ) :
    (vs.flatMap (fun v => rows.map (f v))).length = vs.length * rows.length := by
  induction vs with
  | nil => simp
  | cons v vs ih =>
    simp only [List.flatMap_cons, List.length_append, List.length_map, ih,
      List.length_cons]
    ring

/-- Element `j * R + i` of a melt body is row `i` under value variable `j`:
the blocks are value-variable-major. -/
theorem flatMap_map_getElem? {α β γ : Type} (vs : List α) (rows : List β)
    (f : α → β → γ) (j i : Nat) (hi : i < rows.length) :
    (vs.flatMap (fun v => rows.map (f v)))[j * rows.length + i]? =
      vs[j]?.bind (fun v => rows[i]?.map (f v)) := by
  induction vs generalizing j with
  | nil => simp
  | cons v vs ih =>
    cases j with
    | zero =>
      rw [List.flatMap_cons, Nat.zero_mul, Nat.zero_add,
        List.getElem?_append_left (by simpa using hi)]
      simp
    | succ j =>
      rw [List.flatMap_cons]
      have hidx : (j + 1) * rows.length + i =
          (rows.map (f v)).length + (j * rows.length + i) := by
        simp only [List.length_map]
        ring
      rw [hidx, List.getElem?_append_right (Nat.le_add_right _ _),
        Nat.add_sub_cancel_left]
      simpa using ih j

/-- The number of expanded rows equals the number of raw rows. -/
theorem expandedFrame_rows_length (raw : RawTable) :
    (expandedFrame raw).rows.length = raw.rows.length := by
  simp [expandedFrame, expandedIndex, splitParts, List.length_zipWith]

/-- A lookup over pairs none of whose keys is `c` yields nothing. -/
theorem lookup_eq_none_of_keys_ne {m : List (String × String)} {c : String}
    (h : ∀ p ∈ m, p.1 ≠ c) : m.lookup c = none := by
  induction m with
  | nil => rfl
  | cons p m ih =>
    have hp : ¬(c == p.1) = true := by
      simp only [beq_iff_eq]
      exact fun hc => h p (List.mem_cons_self p m) (hc ▸ rfl)
    simp only [List.lookup, hp]
    exact ih (fun q hq => h q (List.mem_cons_of_mem p hq))

/-! The claims. -/

/-- C4: calling `transform` before `extract` has run (the raw frame is
still `None`), or calling `load` before `transform` has run — in
particular on a freshly constructed `DataCleaner` — fails with the
sequencing precondition error instead of proceeding on absent data. -/
theorem c4_precondition_errors :
    (∀ (t : Option Frame) (iv region : List String)
      (rc : List (String × String)),
      transform ⟨none, t⟩ iv region rc =
        .error (.preconditionError "extract the data first")) ∧
    (∀ r : Option RawTable,
      load ⟨r, none⟩ =
        .error (.preconditionError "transform the data first")) ∧
    load initCleaner =
      .error (.preconditionError "transform the data first") :=
  ⟨fun _ _ _ _ => rfl, fun _ => rfl, rfl⟩

/-- C1 counterexample: the value string "123" contains no substring
"one or more digits, a literal dot, exactly one digit", so the claim says
its row is dropped; the code's regex `(\d+.\d)` (unescaped dot) matches
"123" itself, and the row survives with value 123.0. -/
theorem c1_counterexample :
    specHasDotMatch "123".data = false ∧
    extractValue "123" = some "123" ∧
    reformat ⟨["year", "value"], [[Cell.str "2019", Cell.str "123"]]⟩ =
      .ok ⟨["year", "value"], [[Cell.str "2019", Cell.num 123]]⟩ := by
  refine ⟨rfl, rfl, ?_⟩
  decide

/-- C3 counterexample: KeySchema `["a", "b"]` has length 2 while the row
"z" splits into one part; the claim says unpivot must fail, but the code
pads the short row with a null and succeeds. -/
theorem c3_counterexample :
    (pySplit ',' "z").length ≠ (indexCols "a,b\\time").length ∧
    unpivot ["a", "b"]
        ⟨"a,b\\time", ["2019"], [("x,y", ["1.1"]), ("z", ["2.2"])]⟩ =
      .ok ⟨["a", "b", "year", "value"],
        [[Cell.str "x", Cell.str "y", Cell.str "2019", Cell.str "1.1"],
         [Cell.str "z", Cell.null, Cell.str "2019", Cell.str "2.2"]]⟩ := by
  refine ⟨by decide, ?_⟩
  decide

/-- C6 counterexample: filtering on `["XX"]` matches no row, yet the row
with region "PT" is retained (the frame is returned unchanged), so the
stage does not retain exactly the rows whose region is in the supplied
set. -/
theorem c6_counterexample :
    cellMatches (["XX"].map pyUpper) (Cell.str "PT") = false ∧
    filterRegion ["XX"] ⟨["region"], [[Cell.str "PT"]]⟩ =
      .ok ⟨["region"], [[Cell.str "PT"]]⟩ := by
  refine ⟨rfl, ?_⟩
  decide

/-- C7 counterexample: for two source rows A, B and two year columns, the
output places B's 2019 record (source row 1) at index 1, before A's 2020
record (source row 0) at index 2 — so the records of source row 0 do not
all precede those of source row 1; the order is year-major. -/
theorem c7_counterexample :
    unpivot ["g"]
        ⟨"g\\time", ["2019", "2020"],
          [("A", ["1.1", "1.2"]), ("B", ["2.1", "2.2"])]⟩ =
      .ok ⟨["g", "year", "value"],
        [[Cell.str "A", Cell.str "2019", Cell.str "1.1"],
         [Cell.str "B", Cell.str "2019", Cell.str "2.1"],
         [Cell.str "A", Cell.str "2020", Cell.str "1.2"],
         [Cell.str "B", Cell.str "2020", Cell.str "2.2"]]⟩ := by
  decide

/-- C8 counterexample: a rename map containing the key `year` does rename
the `year` column, contradicting "rename never changes the `year` or
`value` column names". -/
theorem c8_counterexample :
    rename [("year", "y")] ⟨["region", "year", "value"], []⟩ =
      ⟨["region", "y", "value"], []⟩ := by
  decide

/-- C10 counterexample. First: a column-0 header with no backslash does
not silently lose its last attribute — dropping the final comma segment
leaves 1 name for 2 split columns and the column assignment raises a
length mismatch. Second: the id_vars entry "y" is not among the
header-derived attribute names, yet unpivot does not raise: "y" is a year
column, melt accepts it as an id_var and pops it out of the selection
(`K = 0`), so unpivot returns an EMPTY frame instead of failing. -/
theorem c10_counterexample :
    unpivot ["u"] ⟨"u,g", ["2019"], [("a,b", ["1.1"])]⟩ =
      .error .lengthMismatch ∧
    ("y" ∈ indexCols "u\\time" → False) ∧
    unpivot ["y"] ⟨"u\\time", ["y"], [("a", ["5.0"])]⟩ =
      .ok ⟨["y", "year", "value"], []⟩ := by
  refine ⟨by decide, by decide, ?_⟩
  decide

/-- C9: for every non-empty region filter list, `_filter` reads the column
literally named "region" (the name is not a parameter); when the
transformed header has no such column — e.g. when no rename mapped
anything to "region" — it raises AttributeError instead of filtering. -/
theorem c9_missing_region_raises (f : Frame) (region : List String)
    (hne : region ≠ [])
    (hno : f.header.findIdx? (· == "region") = none) :
    filterRegion region f = .error .attributeError := by
  have hempty : region.isEmpty = false := by
    cases region with
    | nil => exact absurd rfl hne
    | cons a t => rfl
  simp only [filterRegion, hempty, Bool.false_eq_true, if_false, hno]

/-- Witness for C9: main's id_vars header without the geo→region rename
has no "region" column, and a filter on ["PT"] raises. -/
theorem c9_witness :
    (["PT"] ≠ ([] : List String)) ∧
    (["unit", "sex", "age", "geo", "year", "value"].findIdx?
      (· == "region") = none) ∧
    filterRegion ["PT"]
        ⟨["unit", "sex", "age", "geo", "year", "value"], []⟩ =
      .error .attributeError :=
  ⟨by decide, by decide,
    c9_missing_region_raises ⟨["unit", "sex", "age", "geo", "year", "value"], []⟩
      ["PT"] (by decide) (by decide)⟩

/-- C5: a non-empty filter list that matches no row of the `region` column
leaves the frame unchanged and triggers the diagnostic warning; the
zero-match case never raises. -/
theorem c5_zero_match_noop (f : Frame) (region : List String) (i : Nat)
    (hne : region ≠ [])
    (hi : f.header.findIdx? (· == "region") = some i)
    (hzero : ∀ r ∈ f.rows,
      cellMatches (region.map pyUpper) (r.getD i Cell.null) = false) :
    filterRegion region f = .ok f ∧ filterWarns region f = true := by
  have hempty : region.isEmpty = false := by
    cases region with
    | nil => exact absurd rfl hne
    | cons a t => rfl
  have hall : (f.rows.all
      (fun r => !(cellMatches (region.map pyUpper) (r.getD i Cell.null)))) = true := by
    rw [List.all_eq_true]
    intro r hr
    rw [hzero r hr]
    rfl
  constructor
  · simp only [filterRegion, hempty, Bool.false_eq_true, if_false, hi, hall,
      if_true]
  · simp only [filterWarns, hempty, hi, hall, Bool.not_false, Bool.and_self]

/-- Witness for C5: filtering on ["XX"] over a single "PT" row matches
nothing, warns, and returns the frame unchanged. -/
theorem c5_witness :
    (["XX"] ≠ ([] : List String)) ∧
    (["region"].findIdx? (· == "region") = some 0) ∧
    filterRegion ["XX"] ⟨["region"], [[Cell.str "PT"]]⟩ =
      .ok ⟨["region"], [[Cell.str "PT"]]⟩ ∧
    filterWarns ["XX"] ⟨["region"], [[Cell.str "PT"]]⟩ = true := by
  have h := c5_zero_match_noop ⟨["region"], [[Cell.str "PT"]]⟩ ["XX"] 0
    (by decide) (by decide) (by decide)
  exact ⟨by decide, by decide, h.1, h.2⟩

/-- C8 (amended): rename with an empty map is a no-op; keys that match no
existing column are ignored without error; the rows are never touched.
(The original claim's "never changes the `year`/`value` column names" does
not hold: the map is applied to every column name, `year` and `value`
included — see the counterexample.) -/
theorem c8_rename_amended :
    (∀ f, rename [] f = f) ∧
    (∀ (m : List (String × String)) (f : Frame),
      (∀ p ∈ m, p.1 ∉ f.header) → rename m f = f) ∧
    (∀ m f, (rename m f).rows = f.rows) := by
  refine ⟨fun f => rfl, ?_, ?_⟩
  · intro m f h
    unfold rename
    split
    · rfl
    · cases f with
      | mk hdr rows =>
        have hmap : ∀ c ∈ hdr, ((m.lookup c).getD c) = c := by
          intro c hc
          rw [lookup_eq_none_of_keys_ne]
          · rfl
          · intro p hp hpc
            exact h p hp (hpc ▸ hc)
        have : hdr.map (fun c => ((m.lookup c).getD c)) = hdr := by
          calc hdr.map (fun c => ((m.lookup c).getD c))
              = hdr.map id := List.map_congr_left hmap
            _ = hdr := List.map_id hdr
        simp only [Frame.mk.injEq]
        exact ⟨this, trivial⟩
  · intro m f
    unfold rename
    split <;> rfl

/-- Witness for C8: a rename map whose key matches no column leaves the
frame untouched. -/
theorem c8_witness :
    (∀ p ∈ [("zzz", "qqq")],
      p.1 ∉ (⟨["region", "year", "value"], []⟩ : Frame).header) ∧
    rename [("zzz", "qqq")] ⟨["region", "year", "value"], []⟩ =
      ⟨["region", "year", "value"], []⟩ :=
  ⟨by decide,
    c8_rename_amended.2.1 [("zzz", "qqq")] ⟨["region", "year", "value"], []⟩
      (by decide)⟩

/-- C6 (amended): the empty (absent) filter list is a no-op; when at least
one row matches, the stage retains exactly the rows whose `region` value
is in the supplied set under case-insensitive comparison (both sides
upper-cased); filtering on ["pt"] retains regions "PT", "Pt" and "pt".
(When the list is non-empty and no row matches, the frame is returned
unchanged rather than emptied — see the counterexample.) -/
theorem c6_filter_amended :
    (∀ f, filterRegion [] f = .ok f) ∧
    (∀ (f : Frame) (region : List String) (i : Nat),
      f.header.findIdx? (· == "region") = some i →
      (∃ r ∈ f.rows,
        cellMatches (region.map pyUpper) (r.getD i Cell.null) = true) →
      filterRegion region f =
        .ok ⟨f.header, f.rows.filter
          (fun r => cellMatches (region.map pyUpper) (r.getD i Cell.null))⟩) ∧
    filterRegion ["pt"]
        ⟨["region"],
          [[Cell.str "PT"], [Cell.str "Pt"], [Cell.str "pt"], [Cell.str "FR"]]⟩ =
      .ok ⟨["region"], [[Cell.str "PT"], [Cell.str "Pt"], [Cell.str "pt"]]⟩ := by
  refine ⟨fun f => rfl, ?_, by decide⟩
  intro f region i hi hex
  obtain ⟨r, hr, hmatch⟩ := hex
  have hempty : region.isEmpty = false := by
    cases region with
    | nil =>
      exfalso
      rcases hcell : r.getD i Cell.null with s | q | _ <;>
        rw [hcell] at hmatch <;> simp [cellMatches] at hmatch
    | cons a t => rfl
  have hall : (f.rows.all
      (fun r => !(cellMatches (region.map pyUpper) (r.getD i Cell.null)))) = false := by
    rw [Bool.eq_false_iff]
    intro htrue
    have hcontra := List.all_eq_true.mp htrue r hr
    rw [hmatch] at hcontra
    simp at hcontra
  simp only [filterRegion, hempty, Bool.false_eq_true, if_false, hi, hall]

/-- Witness for C6: a filter list with one matching row keeps exactly the
matching rows. -/
theorem c6_witness :
    ((⟨["region"], [[Cell.str "PT"], [Cell.str "FR"]]⟩ : Frame).header.findIdx?
      (· == "region") = some 0) ∧
    (∃ r ∈ (⟨["region"], [[Cell.str "PT"], [Cell.str "FR"]]⟩ : Frame).rows,
      cellMatches (["pt"].map pyUpper) (r.getD 0 Cell.null) = true) ∧
    filterRegion ["pt"] ⟨["region"], [[Cell.str "PT"], [Cell.str "FR"]]⟩ =
      .ok ⟨["region"],
        ([[Cell.str "PT"], [Cell.str "FR"]] : List (List Cell)).filter
          (fun r => cellMatches (["pt"].map pyUpper) (r.getD 0 Cell.null))⟩ :=
  ⟨by decide, by decide,
    c6_filter_amended.2.1 ⟨["region"], [[Cell.str "PT"], [Cell.str "FR"]]⟩
      ["pt"] 0 (by decide) (by decide)⟩

/-- Membership form of the Bool column test `contains`. -/
theorem contains_eq_true_iff {l : List String} {a : String} :
    (l.contains a) = true ↔ a ∈ l := by
  simp [List.contains_iff_exists_mem_beq]

/-- Characterization of a successful `_unpivot`: the derived names matched
the split width, melt accepted every requested column with no repeated or
duplicated id label, and the output is the year-major melt body (ids
popped out of the value variables) over the expanded frame. -/
theorem unpivot_ok_iff (raw : RawTable) (id_vars : List String) (g : Frame) :
    unpivot id_vars raw = .ok g ↔
      ((indexCols raw.header0).length = maxSplitWidth raw ∧
        ((id_vars ++ trimmedYears raw).all
          (fun c => (expandedFrame raw).header.contains c)) = true ∧
        (id_vars.any (fun c => decide (2 ≤ id_vars.count c))) = false ∧
        (id_vars.any
          (fun c => decide (2 ≤ (expandedFrame raw).header.count c))) = false ∧
        g = ⟨id_vars ++ ["year", "value"],
          (meltValueVars id_vars (trimmedYears raw)).flatMap (fun v =>
            (expandedFrame raw).rows.map (fun r =>
              id_vars.map (fun c => cellAt (expandedFrame raw).header r c) ++
                [Cell.str v, cellAt (expandedFrame raw).header r v]))⟩) := by
  unfold unpivot melt
  split
  · next hne =>
    constructor
    · intro h; cases h
    · rintro ⟨heq, -, -, -, -⟩; exact absurd heq hne
  · next hne =>
    have heq : (indexCols raw.header0).length = maxSplitWidth raw :=
      not_ne_iff.mp hne
    split
    · next hall =>
      split
      · next hdup =>
        constructor
        · intro h; cases h
        · rintro ⟨-, -, hdupf, -, -⟩
          rw [hdupf] at hdup
          exact Bool.noConfusion hdup
      · next hdup =>
        split
        · next hlab =>
          constructor
          · intro h; cases h
          · rintro ⟨-, -, -, hlabf, -⟩
            rw [hlabf] at hlab
            exact Bool.noConfusion hlab
        · next hlab =>
          constructor
          · intro h
            injection h with h'
            exact ⟨heq, hall, Bool.eq_false_iff.mpr hdup,
              Bool.eq_false_iff.mpr hlab, h'.symm⟩
          · rintro ⟨-, -, -, -, rfl⟩; rfl
    · next hall =>
      constructor
      · intro h; cases h
      · rintro ⟨-, hall2, -, -, -⟩; exact absurd hall2 hall

/-- `_unpivot` raises the length-mismatch ValueError of the column
assignment exactly when the maximum split arity differs from the number
of header-derived names. -/
theorem unpivot_lengthMismatch_iff (raw : RawTable) (id_vars : List String) :
    unpivot id_vars raw = .error .lengthMismatch ↔
      maxSplitWidth raw ≠ (indexCols raw.header0).length := by
  unfold unpivot melt
  split
  · next hne => simp [Ne.symm hne]
  · next hne =>
    have heq := not_ne_iff.mp hne
    split
    · split
      · simp [heq]
      · split
        · simp [heq]
        · simp [heq]
    · simp [heq]

/-- With a matching split width and no repeated `id_vars` entry,
`_unpivot` raises melt's KeyError exactly when some `id_vars` entry is
neither a header-derived name nor a stripped year header. -/
theorem unpivot_keyError_iff (raw : RawTable) (id_vars : List String)
    (hw : maxSplitWidth raw = (indexCols raw.header0).length)
    (hnodup : (id_vars.any (fun c => decide (2 ≤ id_vars.count c))) = false) :
    unpivot id_vars raw = .error .keyError ↔
      ∃ v ∈ id_vars, ¬v ∈ indexCols raw.header0 ++ trimmedYears raw := by
  unfold unpivot melt
  rw [if_neg (not_ne_iff.mpr hw.symm)]
  split
  · next hall =>
    have hnomiss : ∀ v ∈ id_vars,
        v ∈ indexCols raw.header0 ++ trimmedYears raw := by
      intro v hv
      have hmem := List.all_eq_true.mp hall v (List.mem_append_left _ hv)
      rw [contains_eq_true_iff] at hmem
      exact hmem
    split
    · next hdup =>
      rw [hnodup] at hdup
      exact Bool.noConfusion hdup
    · next hdup =>
      split
      · next hlab =>
        constructor
        · intro h
          injection h with h'
          cases h'
        · rintro ⟨v, hv, hnot⟩
          exact absurd (hnomiss v hv) hnot
      · next hlab =>
        constructor
        · intro h; cases h
        · rintro ⟨v, hv, hnot⟩
          exact absurd (hnomiss v hv) hnot
  · next hall =>
    constructor
    · intro _
      obtain ⟨c, hc, hnc⟩ :=
        List.all_eq_false.mp (Bool.eq_false_iff.mpr hall)
      rcases List.mem_append.mp hc with hcid | hcyr
      · exact ⟨c, hcid, fun hmem => hnc (contains_eq_true_iff.mpr hmem)⟩
      · exact absurd
          (contains_eq_true_iff.mpr (List.mem_append_right _ hcyr)) hnc
    · intro _; rfl

/-- C2: with `id_vars` equal to the KeySchema derived from the column-0
header (K names), Y year columns and R data rows, a successful unpivot
yields exactly R*Y long rows, each carrying the K attribute fields plus a
`year` field and a `value` field. -/
theorem c2_unpivot_shape (raw : RawTable) (id_vars : List String) (g : Frame)
    (hk : id_vars = indexCols raw.header0)
    (hok : unpivot id_vars raw = .ok g) :
    g.header = id_vars ++ ["year", "value"] ∧
    g.rows.length = raw.rows.length * raw.yearHeaders.length ∧
    ∀ r ∈ g.rows, r.length = (indexCols raw.header0).length + 2 := by
  obtain ⟨-, -, -, hlab, rfl⟩ := (unpivot_ok_iff raw id_vars g).mp hok
  have hfilter : meltValueVars id_vars (trimmedYears raw) =
      trimmedYears raw := by
    rw [meltValueVars, List.filter_eq_self]
    intro y hy
    cases hct : id_vars.contains y with
    | false => rfl
    | true =>
      have hyid : y ∈ id_vars := contains_eq_true_iff.mp hct
      have hyix : y ∈ indexCols raw.header0 := hk ▸ hyid
      have hcount : 2 ≤ ((expandedFrame raw).header.count y) := by
        show 2 ≤ ((indexCols raw.header0 ++ trimmedYears raw).count y)
        rw [List.count_append]
        have h1 : 0 < (indexCols raw.header0).count y :=
          List.count_pos_iff.mpr hyix
        have h2 : 0 < (trimmedYears raw).count y :=
          List.count_pos_iff.mpr hy
        omega
      have hany : (id_vars.any
          (fun c => decide (2 ≤ (expandedFrame raw).header.count c))) =
          true :=
        List.any_eq_true.mpr ⟨y, hyid, by
          rw [decide_eq_true_eq]
          exact hcount⟩
      rw [hlab] at hany
      exact Bool.noConfusion hany
  refine ⟨rfl, ?_, ?_⟩
  · rw [hfilter]
    rw [length_flatMap_map, expandedFrame_rows_length]
    simp only [trimmedYears, List.length_map]
    ring
  · intro r hr
    rw [List.mem_flatMap] at hr
    obtain ⟨v, -, hr⟩ := hr
    rw [List.mem_map] at hr
    obtain ⟨row, -, rfl⟩ := hr
    simp [hk]

/-- Witness for C2: the spec's end-to-end raw table (K = 4, Y = 2, R = 1)
yields 1 * 2 rows of width 4 + 2. -/
theorem c2_witness :
    (["unit", "sex", "age", "geo"] = indexCols "unit,sex,age,geo\\time") ∧
    unpivot ["unit", "sex", "age", "geo"]
        ⟨"unit,sex,age,geo\\time", ["2019", "2020 "],
          [("YR,F,Y1,PT", ["82.3", "82.6"])]⟩ =
      .ok ⟨["unit", "sex", "age", "geo", "year", "value"],
        [[Cell.str "YR", Cell.str "F", Cell.str "Y1", Cell.str "PT",
          Cell.str "2019", Cell.str "82.3"],
         [Cell.str "YR", Cell.str "F", Cell.str "Y1", Cell.str "PT",
          Cell.str "2020", Cell.str "82.6"]]⟩ ∧
    (⟨["unit", "sex", "age", "geo", "year", "value"],
        [[Cell.str "YR", Cell.str "F", Cell.str "Y1", Cell.str "PT",
          Cell.str "2019", Cell.str "82.3"],
         [Cell.str "YR", Cell.str "F", Cell.str "Y1", Cell.str "PT",
          Cell.str "2020", Cell.str "82.6"]]⟩ : Frame).rows.length = 1 * 2 := by
  have h := c2_unpivot_shape
    ⟨"unit,sex,age,geo\\time", ["2019", "2020 "],
      [("YR,F,Y1,PT", ["82.3", "82.6"])]⟩
    ["unit", "sex", "age", "geo"]
    ⟨["unit", "sex", "age", "geo", "year", "value"],
      [[Cell.str "YR", Cell.str "F", Cell.str "Y1", Cell.str "PT",
        Cell.str "2019", Cell.str "82.3"],
       [Cell.str "YR", Cell.str "F", Cell.str "Y1", Cell.str "PT",
        Cell.str "2020", Cell.str "82.6"]]⟩
    (by decide) (by decide)
  exact ⟨by decide, by decide, h.2.1⟩

/-- C3 (amended): unpivot fails — with the pandas length-mismatch
ValueError, the code's realization of the spec's KeySchemaMismatchError —
exactly when the MAXIMUM split arity over the rows differs from
len(KeySchema); a row splitting into fewer parts than that maximum is
silently padded with nulls and kept (see the counterexample), and on
success no source row is dropped: the output keeps one record per (row,
emitted year-column) pair — every year column not consumed as an id
variable — which is one record per (row, year) pair whenever `id_vars`
names no year column. -/
theorem c3_mismatch_amended (raw : RawTable) (id_vars : List String) :
    (unpivot id_vars raw = .error .lengthMismatch ↔
      maxSplitWidth raw ≠ (indexCols raw.header0).length) ∧
    (∀ g, unpivot id_vars raw = .ok g →
      g.rows.length =
        raw.rows.length * (meltValueVars id_vars (trimmedYears raw)).length) ∧
    ((∀ v ∈ id_vars, ¬v ∈ trimmedYears raw) →
      ∀ g, unpivot id_vars raw = .ok g →
        g.rows.length = raw.rows.length * raw.yearHeaders.length) := by
  refine ⟨unpivot_lengthMismatch_iff raw id_vars, ?_, ?_⟩
  · intro g hok
    obtain ⟨-, -, -, -, rfl⟩ := (unpivot_ok_iff raw id_vars g).mp hok
    rw [length_flatMap_map, expandedFrame_rows_length]
    ring
  · intro hdisj g hok
    obtain ⟨-, -, -, -, rfl⟩ := (unpivot_ok_iff raw id_vars g).mp hok
    have hfilter : meltValueVars id_vars (trimmedYears raw) =
        trimmedYears raw := by
      rw [meltValueVars, List.filter_eq_self]
      intro y hy
      cases hct : id_vars.contains y with
      | false => rfl
      | true => exact absurd hy (hdisj y (contains_eq_true_iff.mp hct))
    rw [hfilter, length_flatMap_map, expandedFrame_rows_length]
    simp only [trimmedYears, List.length_map]
    ring

/-- Witness for C3: on the padded two-row table (one row short), unpivot
succeeds and still emits 2 * 1 records — the short row was kept. -/
theorem c3_witness :
    unpivot ["a", "b"]
        ⟨"a,b\\time", ["2019"], [("x,y", ["1.1"]), ("z", ["2.2"])]⟩ =
      .ok ⟨["a", "b", "year", "value"],
        [[Cell.str "x", Cell.str "y", Cell.str "2019", Cell.str "1.1"],
         [Cell.str "z", Cell.null, Cell.str "2019", Cell.str "2.2"]]⟩ ∧
    (⟨["a", "b", "year", "value"],
        [[Cell.str "x", Cell.str "y", Cell.str "2019", Cell.str "1.1"],
         [Cell.str "z", Cell.null, Cell.str "2019", Cell.str "2.2"]]⟩ :
      Frame).rows.length = 2 * 1 := by
  have h := c3_mismatch_amended
    ⟨"a,b\\time", ["2019"], [("x,y", ["1.1"]), ("z", ["2.2"])]⟩ ["a", "b"]
  exact ⟨by decide,
    h.2.2 (by decide) ⟨["a", "b", "year", "value"],
      [[Cell.str "x", Cell.str "y", Cell.str "2019", Cell.str "1.1"],
       [Cell.str "z", Cell.null, Cell.str "2019", Cell.str "2.2"]]⟩
      (by decide)⟩

/-- C10 (amended): the attribute names available to unpivot are derived
from the column-0 header (backslashes to commas, split on commas, last
segment dropped), not from the caller's `id_vars`; `id_vars` draws on
those derived names together with the stripped year headers, and (with a
matching split width and no repeated `id_vars` entry) unpivot raises
melt's KeyError precisely when some entry is in neither; an `id_vars`
entry that names a year column is consumed as an id column — melt pops it
out of the selection — so that year contributes no (year, value) records,
and naming the only year column yields an empty output rather than an
error; a header with no backslash drops its final comma segment from the
derived names, which raises a length mismatch when the rows split into
the full segment count, rather than silently losing the attribute. -/
theorem c10_unpivot_amended (raw : RawTable) (id_vars : List String)
    (hw : maxSplitWidth raw = (indexCols raw.header0).length)
    (hnodup : (id_vars.any (fun c => decide (2 ≤ id_vars.count c))) = false) :
    (unpivot id_vars raw = .error .keyError ↔
      ∃ v ∈ id_vars, ¬v ∈ indexCols raw.header0 ++ trimmedYears raw) ∧
    (∀ g, unpivot id_vars raw = .ok g →
      g.header = id_vars ++ ["year", "value"] ∧
      g.rows.length =
        raw.rows.length * (meltValueVars id_vars (trimmedYears raw)).length) ∧
    indexCols "unit,sex,geo" = ["unit", "sex"] ∧
    unpivot ["unit", "sex"]
        ⟨"unit,sex,geo", ["2019"], [("YR,F,PT", ["1.1"])]⟩ =
      .error .lengthMismatch := by
  refine ⟨unpivot_keyError_iff raw id_vars hw hnodup, ?_, by decide, by decide⟩
  intro g hok
  obtain ⟨-, -, -, -, rfl⟩ := (unpivot_ok_iff raw id_vars g).mp hok
  refine ⟨rfl, ?_⟩
  rw [length_flatMap_map, expandedFrame_rows_length]
  ring

/-- Witness for C10: an `id_vars` entry matching neither a header-derived
name nor a year header makes unpivot raise melt's KeyError. -/
theorem c10_witness :
    (maxSplitWidth ⟨"u\\time", ["2019"], [("a", ["1.1"])]⟩ =
      (indexCols "u\\time").length) ∧
    unpivot ["bogus"] ⟨"u\\time", ["2019"], [("a", ["1.1"])]⟩ =
      .error .keyError := by
  have h := c10_unpivot_amended ⟨"u\\time", ["2019"], [("a", ["1.1"])]⟩
    ["bogus"] (by decide) (by decide)
  exact ⟨by decide, h.1.mpr ⟨"bogus", by decide, by decide⟩⟩

/-- C7 (amended): unpivot's output is year-major, not source-row-major:
the record for source row `i` under the `j`-th emitted year column (the
year columns melt iterates, i.e. the stripped year headers not consumed
as `id_vars`) sits at output index `j * R + i`. Within one year block the
source row order is preserved, but all records for the first year column
precede all records for the second (so for two or more rows and years a
later source row's record precedes an earlier source row's record, as the
counterexample shows). -/
theorem c7_order_amended (raw : RawTable) (id_vars : List String) (g : Frame)
    (i j : Nat) (er : List Cell) (yj : String)
    (hok : unpivot id_vars raw = .ok g)
    (hrow : (expandedFrame raw).rows[i]? = some er)
    (hyear : (meltValueVars id_vars (trimmedYears raw))[j]? = some yj) :
    g.rows[j * raw.rows.length + i]? =
      some (id_vars.map (fun c => cellAt (expandedFrame raw).header er c) ++
        [Cell.str yj, cellAt (expandedFrame raw).header er yj]) := by
  obtain ⟨-, -, -, -, rfl⟩ := (unpivot_ok_iff raw id_vars g).mp hok
  have hi : i < (expandedFrame raw).rows.length := by
    by_contra hge
    rw [List.getElem?_eq_none (Nat.le_of_not_lt hge)] at hrow
    cases hrow
  have hR : raw.rows.length = (expandedFrame raw).rows.length :=
    (expandedFrame_rows_length raw).symm
  rw [hR, flatMap_map_getElem? _ _ _ j i hi, hyear]
  rw [hrow]
  rfl

/-- Witness for C7: in the 2-row, 2-year table, source row 0's record for
the second year column sits at index 1 * 2 + 0 = 2 (after source row 1's
record for the first year column). -/
theorem c7_witness :
    unpivot ["g"]
        ⟨"g\\time", ["2019", "2020"],
          [("A", ["1.1", "1.2"]), ("B", ["2.1", "2.2"])]⟩ =
      .ok ⟨["g", "year", "value"],
        [[Cell.str "A", Cell.str "2019", Cell.str "1.1"],
         [Cell.str "B", Cell.str "2019", Cell.str "2.1"],
         [Cell.str "A", Cell.str "2020", Cell.str "1.2"],
         [Cell.str "B", Cell.str "2020", Cell.str "2.2"]]⟩ ∧
    (⟨["g", "year", "value"],
        [[Cell.str "A", Cell.str "2019", Cell.str "1.1"],
         [Cell.str "B", Cell.str "2019", Cell.str "2.1"],
         [Cell.str "A", Cell.str "2020", Cell.str "1.2"],
         [Cell.str "B", Cell.str "2020", Cell.str "2.2"]]⟩ : Frame).rows[1 * 2 + 0]? =
      some [Cell.str "A", Cell.str "2020", Cell.str "1.2"] := by
  have h := c7_order_amended
    ⟨"g\\time", ["2019", "2020"],
      [("A", ["1.1", "1.2"]), ("B", ["2.1", "2.2"])]⟩
    ["g"]
    ⟨["g", "year", "value"],
      [[Cell.str "A", Cell.str "2019", Cell.str "1.1"],
       [Cell.str "B", Cell.str "2019", Cell.str "2.1"],
       [Cell.str "A", Cell.str "2020", Cell.str "1.2"],
       [Cell.str "B", Cell.str "2020", Cell.str "2.2"]]⟩
    0 1 [Cell.str "A", Cell.str "1.1", Cell.str "1.2"] "2020"
    (by decide) (by decide) (by decide)
  exact ⟨by decide, h⟩

/-- The zipWith of `_reformat`'s column assignment, the second list being
the rows' own extracted column, collapses to a single map over the rows. -/
theorem zipWith_map_self {α β γ : Type} (f : α → β → γ) (g : α → β)
    (l : List α) :
    List.zipWith f l (l.map g) = l.map (fun a => f a (g a)) := by
  induction l with
  | nil => rfl
  | cons a l ih => simp [ih]

/-- Reading back the cell `_reformat` just wrote. -/
theorem getD_set_self {l : List Cell} {i : Nat} {c : Cell}
    (h : i < l.length) : (l.set i c).getD i Cell.null = c := by
  rw [List.getD_eq_getElem?_getD, List.getElem?_set_self h]
  rfl

/-- The fate of one row under `_reformat` (value column at index `i`):
kept — with the capture parsed into the value cell — exactly when the
regex matches (and the capture parses as a float). -/
def reformatRow (i : Nat) (r : List Cell) : Option (List Cell) :=
  match extractCell (r.getD i Cell.null) with
  | some s => (pyFloat s).map (fun q => r.set i (Cell.num q))
  | none => none

/-- `_reformat`'s write-back-then-drop-nulls pipeline, rowwise: the kept
rows are exactly the per-row reformat results. -/
theorem filter_set_eq_filterMap (i : Nat) (rows : List (List Cell))
    (hlen : ∀ r ∈ rows, i < r.length)
    (hgood : ∀ r ∈ rows, ∀ s, extractCell (r.getD i Cell.null) = some s →
      (pyFloat s).isSome = true) :
    ((rows.map (fun r =>
        r.set i (newValueCell (extractCell (r.getD i Cell.null))))).filter
      (fun r => r.getD i Cell.null != Cell.null)) =
      rows.filterMap (reformatRow i) := by
  induction rows with
  | nil => rfl
  | cons r rows ih =>
    have hi : i < r.length := hlen r (List.mem_cons_self r rows)
    have ih' := ih (fun x hx => hlen x (List.mem_cons_of_mem r hx))
      (fun x hx => hgood x (List.mem_cons_of_mem r hx))
    simp only [List.map_cons, List.filter_cons, List.filterMap_cons]
    cases he : extractCell (r.getD i Cell.null) with
    | none =>
      have hcond : ((r.set i (newValueCell none)).getD i Cell.null !=
          Cell.null) = false := by
        rw [show newValueCell none = Cell.null from rfl, getD_set_self hi]
        rfl
      have hrr : reformatRow i r = none := by
        unfold reformatRow
        rw [he]
      rw [hcond, hrr]
      simp only [Bool.false_eq_true, if_false]
      exact ih'
    | some s =>
      obtain ⟨q, hq⟩ := Option.isSome_iff_exists.mp
        (hgood r (List.mem_cons_self r rows) s he)
      have hcell : newValueCell (some s) = Cell.num q := by
        simp [newValueCell, hq]
      have hcond : ((r.set i (newValueCell (some s))).getD i Cell.null !=
          Cell.null) = true := by
        rw [hcell, getD_set_self hi]
        rfl
      have hrr : reformatRow i r = some (r.set i (Cell.num q)) := by
        have h1 : reformatRow i r =
            Option.map (fun p => r.set i (Cell.num p)) (pyFloat s) := by
          unfold reformatRow
          rw [he]
        rw [h1, hq]
        rfl
      rw [hcond, hrr, if_pos rfl, hcell, ih']

/-- Evaluating the float coercion on the capture "79.4": the parser
yields 79 + 4/10, i.e. 397/5. -/
theorem pyFloat_eval_794 : pyFloat "79.4" = some ((397 : ℚ) / 5) := by
  have h : pyFloat "79.4" = some ((79 : ℚ) + (4 : ℚ) / 10 ^ 1) := rfl
  rw [h]
  norm_num

/-- C1 (amended): `_reformat` extracts the first substring of the raw
value string matching "one or more digits, ANY ONE CHARACTER, exactly one
digit" (the regex's dot is unescaped, so it is not restricted to a literal
dot), parses the capture as a float — the whole stage raising when some
capture is not a number — and drops exactly the rows with no match; value
"79.4 e" still yields 79.4, value ":" still drops its row, and every
surviving row has a non-null numeric value. -/
theorem c1_reformat_amended (hdr : List String) (rows : List (List Cell))
    (i : Nat) (g : Frame)
    (hi : hdr.findIdx? (· == "value") = some i)
    (hlen : ∀ r ∈ rows, i < r.length)
    (hok : reformat ⟨hdr, rows⟩ = .ok g) :
    extractValue "79.4 e" = some "79.4" ∧
    extractValue ":" = none ∧
    pyFloat "79.4" = some (397 / 5) ∧
    g.header = hdr ∧
    g.rows = rows.filterMap (reformatRow i) ∧
    ∀ r ∈ g.rows, ∃ q : ℚ, r.getD i Cell.null = Cell.num q := by
  unfold reformat at hok
  rw [hi] at hok
  dsimp only at hok
  split at hok
  · cases hok
  · next hnotany =>
    have hgood : ∀ r ∈ rows, ∀ s,
        extractCell (r.getD i Cell.null) = some s →
        (pyFloat s).isSome = true := by
      intro r hr s hs
      cases hpf : pyFloat s with
      | some q => rfl
      | none =>
        exfalso
        apply hnotany
        rw [List.any_eq_true]
        refine ⟨extractCell (r.getD i Cell.null),
          List.mem_map_of_mem _ hr, ?_⟩
        rw [hs]
        simp [hpf]
    injection hok with hok'
    subst hok'
    have hrows :
        ((List.zipWith (fun r e => r.set i (newValueCell e)) rows
          (rows.map (fun r => extractCell (r.getD i Cell.null)))).filter
            (fun r => r.getD i Cell.null != Cell.null)) =
          rows.filterMap (reformatRow i) := by
      rw [zipWith_map_self, filter_set_eq_filterMap i rows hlen hgood]
    refine ⟨by decide, rfl, pyFloat_eval_794, rfl, hrows, ?_⟩
    intro r hr
    rw [show (⟨hdr, _⟩ : Frame).rows = _ from hrows] at hr
    obtain ⟨a, ha, hfa⟩ := List.mem_filterMap.mp hr
    unfold reformatRow at hfa
    split at hfa
    · next s hs =>
      obtain ⟨q, hq, hset⟩ := Option.map_eq_some'.mp hfa
      exact ⟨q, hset ▸ getD_set_self (hlen a ha)⟩
    · cases hfa

/-- Witness for C1: a two-row frame where "79.4 e" is kept as 79.4 and
":" is dropped, matching the filterMap characterization. -/
theorem c1_witness :
    reformat ⟨["year", "value"],
        [[Cell.str "2019", Cell.str "79.4 e"],
         [Cell.str "2019", Cell.str ":"]]⟩ =
      .ok ⟨["year", "value"],
        [[Cell.str "2019", Cell.num (397 / 5)]]⟩ ∧
    (⟨["year", "value"],
        [[Cell.str "2019", Cell.num (397 / 5)]]⟩ : Frame).rows =
      ([[Cell.str "2019", Cell.str "79.4 e"],
        [Cell.str "2019", Cell.str ":"]] : List (List Cell)).filterMap
        (reformatRow 1) := by
  have hval : ((79 : ℚ) + 4 / 10 ^ 1) = 397 / 5 := by norm_num
  have hok : reformat ⟨["year", "value"],
      [[Cell.str "2019", Cell.str "79.4 e"],
       [Cell.str "2019", Cell.str ":"]]⟩ =
      .ok ⟨["year", "value"],
        [[Cell.str "2019", Cell.num (397 / 5)]]⟩ := by
    have h0 : reformat ⟨["year", "value"],
        [[Cell.str "2019", Cell.str "79.4 e"],
         [Cell.str "2019", Cell.str ":"]]⟩ =
        .ok ⟨["year", "value"],
          [[Cell.str "2019", Cell.num ((79 : ℚ) + 4 / 10 ^ 1)]]⟩ := rfl
    rw [h0, hval]
  have h := c1_reformat_amended ["year", "value"]
    [[Cell.str "2019", Cell.str "79.4 e"], [Cell.str "2019", Cell.str ":"]]
    1 ⟨["year", "value"], [[Cell.str "2019", Cell.num (397 / 5)]]⟩
    (by decide) (by decide) hok
  exact ⟨hok, h.2.2.2.2.1⟩

end LifeExpectancy
